import Mathlib

/-!
Verification of the odmantic query/save engine (`odmantic/engine.py`): a
shallow embedding of the aggregation-pipeline builder, the lazy result
cursor, and the recursive cascading saver, together with theorems about
the claims of the specification.
-/

namespace Odmantic

/-- BSON-like values: the raw documents and pipeline stage descriptors the
engine exchanges with the store.  Python dicts become ordered association
lists (`doc`), Python lists become `arr`. -/
inductive Bson where
  | null : Bson
  | bool : Bool → Bson
  | int : Int → Bson
  | str : String → Bson
  | arr : List Bson → Bson
  | doc : List (String × Bson) → Bson

/-- Static per-model metadata the engine reads from the model class:
`__collection__` and, for each entry of `__references__` in declaration
order, the reference field name, the `ODMReference.key_name` and the
referenced model type (`ODMReference.model`). -/
inductive ModelType where
  | mk (collection : String) (references : List (String × String × ModelType))

/-- The model's `__collection__` name. -/
def ModelType.collection : ModelType → String
  | .mk c _ => c

/-- The model's reference fields, in declaration order: field name,
storage key name, referenced model type. -/
def ModelType.references : ModelType → List (String × String × ModelType)
  | .mk _ r => r

/-- The stage `{"$unwind": "$<field_name>"}` appended after each lookup. -/
def unwindStage (fieldName : String) : Bson :=
  .doc [("$unwind", .str ("$" ++ fieldName))]

/-- The inner stage `{"$match": {"$expr": {"$eq": ["$_id", "$$foreign_id"]}}}`
opening every lookup sub-pipeline. -/
def foreignIdMatchStage : Bson :=
  .doc [("$match", .doc [("$expr",
    .doc [("$eq", .arr [.str "$_id", .str "$$foreign_id"])])])]

/-- The `$lookup` stage built for one reference field: join `fromColl`
where its `_id` equals the value stored under `keyName`, run `subPipeline`
inside the join, and place the output under `fieldName` (the `as` key). -/
def lookupStage (fromColl keyName fieldName : String) (subPipeline : List Bson) : Bson :=
  .doc [("$lookup", .doc
    [ ("from", .str fromColl)
    , ("let", .doc [("foreign_id", .str ("$" ++ keyName))])
    , ("pipeline", .arr (foreignIdMatchStage :: subPipeline))
    , ("as", .str fieldName) ])]

mutual

/-- Translation of `AIOEngine._cascade_find_pipeline`: for every reference
field of the model, in declaration order, append a `$lookup` stage (whose
sub-pipeline starts with the foreign-id match and recursively contains the
referenced model's own cascade stages) followed by a `$unwind` stage. -/
def cascade_find_pipeline : ModelType → String → List Bson
  | .mk _ refs, doc_namespace => cascadeRefs refs doc_namespace

/-- The loop body of `_cascade_find_pipeline` over the remaining reference
fields: each iteration appends the lookup stage and then the unwind stage. -/
def cascadeRefs : List (String × String × ModelType) → String → List Bson
  | [], _ => []
  | (fieldName, keyName, target) :: rest, doc_namespace =>
      lookupStage target.collection keyName fieldName
          (cascade_find_pipeline target (doc_namespace ++ fieldName ++ ".")) ::
        unwindStage fieldName :: cascadeRefs rest doc_namespace

end

/-- The stage `{"$match": query}` prepended by `find`. -/
def matchStage (query : Bson) : Bson := .doc [("$match", query)]

/-- The stage `{"$limit": n}`. -/
def limitStage (n : Int) : Bson := .doc [("$limit", .int n)]

/-- The stage `{"$skip": n}`. -/
def skipStage (n : Int) : Bson := .doc [("$skip", .int n)]

/-- The pipeline `AIOEngine.find` sends to `collection.aggregate`: start
from `[{"$match": query}]`, append a limit stage when `limit > 0`, append
a skip stage when `skip > 0`, then extend with the cascade stages. -/
def find_pipeline (model : ModelType) (query : Bson) (limit skip : Int) : List Bson :=
  let p1 : List Bson := [matchStage query]
  let p2 : List Bson := if limit > 0 then p1 ++ [limitStage limit] else p1
  let p3 : List Bson := if skip > 0 then p2 ++ [skipStage skip] else p2
  p3 ++ cascade_find_pipeline model ""

/-- Recognizes a `$limit` stage descriptor. -/
def isLimitStage : Bson → Bool
  | .doc (("$limit", _) :: _) => true
  | _ => false

/-- Recognizes a `$skip` stage descriptor. -/
def isSkipStage : Bson → Bool
  | .doc (("$skip", _) :: _) => true
  | _ => false

/-- A model instance as the saver sees it: `__collection__`,
`__primary_key__`, `instance.id` (the primary key value), the serialized
plain-field values `doc` draws from, the reference fields in declaration
order each holding its sub-instance, and `__fields_modified__` (a set of
field names, carried as a list). -/
inductive Instance where
  | mk (collection : String) (primaryKeyName : String) (idVal : Bson)
      (fields : List (String × Bson))
      (references : List (String × Instance))
      (fieldsModified : List String)

/-- The instance's `__collection__`. -/
def Instance.collection : Instance → String
  | .mk c _ _ _ _ _ => c

/-- The instance's `__primary_key__` field name. -/
def Instance.primaryKeyName : Instance → String
  | .mk _ pk _ _ _ _ => pk

/-- The instance's `instance.id`: the primary key value. -/
def Instance.idVal : Instance → Bson
  | .mk _ _ v _ _ _ => v

/-- The instance's serialized field values. -/
def Instance.fields : Instance → List (String × Bson)
  | .mk _ _ _ fs _ _ => fs

/-- The instance's reference fields with their sub-instances,
in declaration order. -/
def Instance.references : Instance → List (String × Instance)
  | .mk _ _ _ _ rs _ => rs

/-- The instance's `__fields_modified__` set. -/
def Instance.fieldsModified : Instance → List String
  | .mk _ _ _ _ _ m => m

/-- The same instance with `__fields_modified__` replaced
(`object.__setattr__(instance, "__fields_modified__", s)`). -/
def Instance.withFieldsModified : Instance → List String → Instance
  | .mk c pk v fs rs _, m => .mk c pk v fs rs m

/-- Modelled from the spec: `instance.doc(include=...)` is the external
model collaborator's `to_document(instance, include=field-name-set) ->
raw document restricted to the given fields` (spec section 6); its code
lives in `odmantic/model.py`, which is not part of the staged sources. -/
def Instance.doc (i : Instance) (includeFields : List String) : List (String × Bson) :=
  i.fields.filter (fun p => includeFields.contains p.1)

/-- One `collection.update_one(filter, update, upsert=...,
bypass_document_validation=...)` call as issued by `_save`. -/
structure WriteOp where
  collection : String
  filter : Bson
  update : Bson
  upsert : Bool
  bypassDocumentValidation : Bool

/-- The single upsert `_save` issues for a modified instance:
`update_one({"_id": instance.id}, {"$set": instance.doc(include=
__fields_modified__ - {__primary_key__})}, upsert=True,
bypass_document_validation=True)`. -/
def saveOp (i : Instance) : WriteOp :=
  { collection := i.collection
  , filter := .doc [("_id", i.idVal)]
  , update := .doc [("$set",
      .doc (i.doc (i.fieldsModified.filter (fun f => f != i.primaryKeyName))))]
  , upsert := true
  , bypassDocumentValidation := true }

/-- The writes `_save` issues for one instance itself (after its children):
none when `__fields_modified__` is empty (`if len(instance.__fields_modified__):`),
exactly one upsert otherwise. -/
def saveWriteOf (i : Instance) : List WriteOp :=
  match i.fieldsModified with
  | [] => []
  | _ :: _ => [saveOp i]

mutual

/-- The write operations of one recursive `_save` call in the sequential
order: for every reference field in declaration order the sub-instance's
own recursive writes, all of them before the instance's own write (the
code gathers the children's saves and awaits them all before writing the
instance itself; `SaveTrace` below additionally covers every concurrent
interleaving of the sibling subtrees). -/
def saveWrites : Instance → List WriteOp
  | .mk c pk v fs refs m =>
      saveWritesList refs ++ saveWriteOf (.mk c pk v fs refs m)

/-- The writes of the sub-instances of the given reference fields,
in declaration order. -/
def saveWritesList : List (String × Instance) → List WriteOp
  | [] => []
  | (_, sub) :: rest => saveWrites sub ++ saveWritesList rest

end

/-- Errors the store can raise on a write: `DuplicateKeyError` carrying
the violated key pattern's keys (`e.details["keyPattern"]`), or any other
transport error. -/
inductive StoreError where
  | duplicateKey (keyPattern : List String)
  | transport (message : String)

/-- Errors `AIOEngine.save` can raise: the engine's own
`DuplicatePrimaryKeyError(instance)`, or a store error re-raised
unchanged. -/
inductive SaveError where
  | duplicatePrimaryKey (offending : Instance)
  | storeError (e : StoreError)

/-- The store's observable committed state: the log of writes that have
been durably applied. -/
abbrev StoreState := List WriteOp

/-- The first error the store raises while performing `ops` in order,
under the failure behaviour `fail`; `none` when every write succeeds. -/
def firstFail (fail : WriteOp → Option StoreError) : List WriteOp → Option StoreError
  | [] => none
  | op :: rest =>
      match fail op with
      | some e => some e
      | none => firstFail fail rest

/-- Modelled from the spec: the scoped session/transaction of the external
storage driver (spec section 6, `start_session()` / `start_transaction()`:
commit-on-clean-exit, rollback-on-exception).  All writes of the
transaction body commit together when none fails; a failure raises and no
write becomes observable. -/
def runTransaction (st : StoreState) (fail : WriteOp → Option StoreError)
    (ops : List WriteOp) : Except StoreError StoreState :=
  match firstFail fail ops with
  | some e => .error e
  | none => .ok (st ++ ops)

/-- Translation of `AIOEngine.save`, parameterized by the write trace the
recursive `_save` performs inside the transaction: on clean commit clear
the root's `__fields_modified__` and return it; on a `DuplicateKeyError`
whose key pattern contains `"_id"` raise `DuplicatePrimaryKeyError`
carrying the root instance `save` was called with; re-raise any other
error unchanged.  The second component is the observable store state
afterwards. -/
def saveWithTrace (root : Instance) (trace : List WriteOp) (st : StoreState)
    (fail : WriteOp → Option StoreError) : Except SaveError Instance × StoreState :=
  match runTransaction st fail trace with
  | .ok st2 => (.ok (root.withFieldsModified []), st2)
  | .error (.duplicateKey kp) =>
      if "_id" ∈ kp then (.error (.duplicatePrimaryKey root), st)
      else (.error (.storeError (.duplicateKey kp)), st)
  | .error e => (.error (.storeError e), st)

/-- Translation of `AIOEngine.save` under the sequential write order of
`saveWrites`. -/
def save (root : Instance) (st : StoreState)
    (fail : WriteOp → Option StoreError) : Except SaveError Instance × StoreState :=
  saveWithTrace root (saveWrites root) st fail

/-- The mutable state of an `AIOCursor`: the documents still unconsumed in
the underlying motor cursor's stream, and `_results` (`None` until
materialized, afterwards the cached list of parsed instances). -/
structure CursorState where
  stream : List Bson
  results : Option (List Instance)

/-- Translation of `AIOCursor._parse_document`: parse the raw document
with the model collaborator's `parse_doc` (kept abstract as `parse_doc`),
then force the instance's `__fields_modified__` to the empty set. -/
def parse_document (parse_doc : Bson → Instance) (raw_doc : Bson) : Instance :=
  (parse_doc raw_doc).withFieldsModified []

/-- Translation of `AIOCursor.__await__`: if `_results` is set return it
(reading nothing from the stream); otherwise pull every remaining raw
document with `to_list(length=None)`, parse them one by one appending to a
fresh list, cache that list in `_results` and return it.  The third
component counts the documents read from the underlying stream. -/
def cursorAwait (parse_doc : Bson → Instance) (s : CursorState) :
    List Instance × CursorState × Nat :=
  match s.results with
  | some rs => (rs, s, 0)
  | none =>
      let instances :=
        s.stream.foldl (fun acc raw_doc => acc ++ [parse_document parse_doc raw_doc]) []
      (instances, ⟨[], some instances⟩, s.stream.length)

/-- Translation of a run-to-exhaustion `AIOCursor.__aiter__`: if
`_results` is set replay the cache (reading nothing from the stream);
otherwise parse and yield each streamed document, appending it to a fresh
list which is cached in `_results` once the stream is exhausted.  The
first component is the sequence of yielded instances, the third the
number of documents read from the underlying stream. -/
def cursorIterate (parse_doc : Bson → Instance) (s : CursorState) :
    List Instance × CursorState × Nat :=
  match s.results with
  | some rs => (rs, s, 0)
  | none =>
      let yielded :=
        s.stream.foldl (fun acc raw_doc => acc ++ [parse_document parse_doc raw_doc]) []
      (yielded, ⟨[], some yielded⟩, s.stream.length)

/-- Translation of an `AIOCursor.__aiter__` run that yields `k` instances
and is then abandoned: when the cache is set the replay touches no state;
otherwise, if `k` is less than the documents remaining, the generator is
closed mid-loop — the stream has advanced past `k` documents and
`_results` is never assigned — while a `k` at or beyond the remaining
documents lets the loop finish and cache its list. -/
def cursorIteratePartial (parse_doc : Bson → Instance) (s : CursorState) (k : Nat) :
    List Instance × CursorState :=
  match s.results with
  | some rs => (rs.take k, s)
  | none =>
      if k < s.stream.length then
        ((s.stream.take k).map (parse_document parse_doc), ⟨s.stream.drop k, none⟩)
      else
        let yielded :=
          s.stream.foldl (fun acc raw_doc => acc ++ [parse_document parse_doc raw_doc]) []
        (yielded, ⟨[], some yielded⟩)

/-- A just-constructed `AIOCursor` over the stream of raw documents the
aggregation returned: nothing consumed, nothing cached. -/
def freshCursor (docs : List Bson) : CursorState := ⟨docs, none⟩

/-- One full materialization of the cursor, by `__await__` (`useAwait =
true`) or by exhausting `__aiter__` (`useAwait = false`). -/
def cursorConsume (useAwait : Bool) (parse_doc : Bson → Instance) (s : CursorState) :
    List Instance × CursorState × Nat :=
  if useAwait then cursorAwait parse_doc s else cursorIterate parse_doc s

/-- The instances a fully materialized `AIOEngine.find` call yields: the
store (kept abstract as a function from the issued pipeline to the
returned raw documents) answers the pipeline of `find`, and awaiting the
fresh cursor parses every returned document. -/
def find_materialized (store : List Bson → List Bson) (parse_doc : Bson → Instance)
    (model : ModelType) (query : Bson) (limit skip : Int) : List Instance :=
  (cursorAwait parse_doc (freshCursor (store (find_pipeline model query limit skip)))).1

/-- Translation of `AIOEngine.find_one`: await `find(model, query,
limit=1)`; return `None` when the result list is empty and its first
element otherwise. -/
def find_one (store : List Bson → List Bson) (parse_doc : Bson → Instance)
    (model : ModelType) (query : Bson) : Option Instance :=
  let results := find_materialized store parse_doc model query 1 0
  if h : results.length = 0 then none
  else some (results.get ⟨0, Nat.pos_of_ne_zero h⟩)

/-- One list is an interleaving of two others: the order within each
source list is preserved.  This is how `asyncio.gather` may interleave
the writes of two concurrently scheduled child saves. -/
inductive Interleave : List WriteOp → List WriteOp → List WriteOp → Prop where
  | nil : Interleave [] [] []
  | left {x : WriteOp} {xs ys zs : List WriteOp} :
      Interleave xs ys zs → Interleave (x :: xs) ys (x :: zs)
  | right {y : WriteOp} {xs ys zs : List WriteOp} :
      Interleave xs ys zs → Interleave xs (y :: ys) (y :: zs)

/-- A list is an interleaving of all the given lists. -/
inductive InterleaveAll : List (List WriteOp) → List WriteOp → Prop where
  | nil : InterleaveAll [] []
  | cons {l : List WriteOp} {ls : List (List WriteOp)} {t r : List WriteOp} :
      InterleaveAll ls t → Interleave l t r → InterleaveAll (l :: ls) r

mutual

/-- The possible write traces of one recursive `_save` call under the
cooperative scheduler: the direct children's saves are scheduled
concurrently (`gather`), so their subtree traces may interleave in any
order, but all of them complete (`await gather(...)`) before the
instance's own write is issued. -/
inductive SaveTrace : Instance → List WriteOp → Prop where
  | mk {c pk : String} {v : Bson} {fs : List (String × Bson)}
      {refs : List (String × Instance)} {m : List String}
      {childTraces : List (List WriteOp)} {merged : List WriteOp}
      (hchild : SaveTraceChildren refs childTraces)
      (hmerge : InterleaveAll childTraces merged) :
      SaveTrace (.mk c pk v fs refs m)
        (merged ++ saveWriteOf (.mk c pk v fs refs m))

/-- Each reference field's sub-instance contributes one subtree trace. -/
inductive SaveTraceChildren : List (String × Instance) → List (List WriteOp) → Prop where
  | nil : SaveTraceChildren [] []
  | cons {f : String} {sub : Instance} {rest : List (String × Instance)}
      {ct : List WriteOp} {cts : List (List WriteOp)} :
      SaveTrace sub ct → SaveTraceChildren rest cts →
      SaveTraceChildren ((f, sub) :: rest) (ct :: cts)

end

/-! Helper lemmas shared by the claim theorems. -/

/-- Appending parsed documents one by one to an accumulator (the cursor's
`results.append(...)` loop) produces the accumulator followed by the map
of the parser over the documents. -/
theorem foldl_parse_eq_map (parse_doc : Bson → Instance) :
    ∀ (l : List Bson) (acc : List Instance),
      l.foldl (fun acc raw_doc => acc ++ [parse_document parse_doc raw_doc]) acc
        = acc ++ l.map (parse_document parse_doc) := by
  intro l
  induction l with
  | nil => intro acc; simp
  | cons d rest ih => intro acc; simp [List.foldl_cons, ih]

/-- The loop of `_cascade_find_pipeline` emits, for each reference field
in order, exactly the pair of its lookup stage and its unwind stage. -/
theorem cascadeRefs_eq_flatMap :
    ∀ (refs : List (String × String × ModelType)) (doc_namespace : String),
      cascadeRefs refs doc_namespace
        = refs.flatMap (fun r =>
            [ lookupStage r.2.2.collection r.2.1 r.1
                (cascade_find_pipeline r.2.2 (doc_namespace ++ r.1 ++ ".")),
              unwindStage r.1 ]) := by
  intro refs
  induction refs with
  | nil => intro ns; rfl
  | cons r rest ih =>
      intro ns
      obtain ⟨f, k, t⟩ := r
      simp [cascadeRefs, ih]

/-- Every stage of a cascade pipeline is a lookup or an unwind, so it is
neither a limit stage nor a skip stage. -/
theorem cascade_stage_not_limit_skip :
    ∀ (refs : List (String × String × ModelType)) (doc_namespace : String)
      (s : Bson), s ∈ cascadeRefs refs doc_namespace →
      isLimitStage s = false ∧ isSkipStage s = false := by
  intro refs
  induction refs with
  | nil => intro ns s hs; cases hs
  | cons r rest ih =>
      intro ns s hs
      obtain ⟨f, k, t⟩ := r
      simp only [cascadeRefs, List.mem_cons] at hs
      rcases hs with h | h | h
      · subst h; exact ⟨rfl, rfl⟩
      · subst h; exact ⟨rfl, rfl⟩
      · exact ih ns s h

/-- Both source lists of an interleaving embed into it as sublists. -/
theorem Interleave.sublist_both {xs ys zs : List WriteOp} (h : Interleave xs ys zs) :
    xs.Sublist zs ∧ ys.Sublist zs := by
  induction h with
  | nil => exact ⟨List.Sublist.refl _, List.Sublist.refl _⟩
  | left _ ih => exact ⟨List.Sublist.cons₂ _ ih.1, List.Sublist.cons _ ih.2⟩
  | right _ ih => exact ⟨List.Sublist.cons _ ih.1, List.Sublist.cons₂ _ ih.2⟩

/-- Every source list of an n-ary interleaving embeds into it. -/
theorem InterleaveAll.mem_sublist {ls : List (List WriteOp)} {r : List WriteOp}
    (h : InterleaveAll ls r) : ∀ l ∈ ls, l.Sublist r := by
  induction h with
  | nil => intro l hl; cases hl
  | cons _ hil ih =>
      intro l hl
      rcases List.mem_cons.mp hl with h | h
      · subst h; exact hil.sublist_both.1
      · exact ((ih l h).trans hil.sublist_both.2)

/-- If some write of the transaction body fails, the sequential run of
the body hits a first failure. -/
theorem firstFail_isSome_of_mem (fail : WriteOp → Option StoreError) :
    ∀ (ops : List WriteOp) (op : WriteOp) (e : StoreError),
      op ∈ ops → fail op = some e → ∃ e2, firstFail fail ops = some e2 := by
  intro ops
  induction ops with
  | nil => intro op e h; cases h
  | cons o rest ih =>
      intro op e hmem hfail
      rcases List.mem_cons.mp hmem with h | h
      · subst h
        exact ⟨e, by simp [firstFail, hfail]⟩
      · rcases h2 : fail o with _ | e3
        · obtain ⟨e2, he2⟩ := ih op e h hfail
          exact ⟨e2, by simp [firstFail, h2, he2]⟩
        · exact ⟨e3, by simp [firstFail, h2]⟩

/-- A leaf instance (no reference fields) admits exactly its own write
list as a save trace. -/
theorem saveTrace_leaf (c pk : String) (v : Bson) (fs : List (String × Bson))
    (m : List String) :
    SaveTrace (.mk c pk v fs [] m) (saveWriteOf (.mk c pk v fs [] m)) :=
  SaveTrace.mk .nil .nil

/-- The cascade loop emits two stages per reference field. -/
theorem cascadeRefs_length :
    ∀ (refs : List (String × String × ModelType)) (doc_namespace : String),
      (cascadeRefs refs doc_namespace).length = 2 * refs.length := by
  intro refs
  induction refs with
  | nil => intro ns; rfl
  | cons r rest ih =>
      intro ns
      obtain ⟨f, k, t⟩ := r
      simp [cascadeRefs, ih]
      omega

/-! The claim theorems. -/

/-- C3: the cascade pipeline builder is a pure, deterministic function of
the model type; for every model it produces exactly one lookup stage
immediately followed by one unwind stage per reference field, in
field-declaration order, the lookup's sub-pipeline recursively containing
the referenced model's own cascade stages (so the pairing repeats at every
level of the reference graph) and its output placed under the reference's
field name. -/
theorem cascade_pipeline_structure (m : ModelType) (doc_namespace : String) :
    cascade_find_pipeline m doc_namespace
      = m.references.flatMap (fun r =>
          [ lookupStage r.2.2.collection r.2.1 r.1
              (cascade_find_pipeline r.2.2 (doc_namespace ++ r.1 ++ ".")),
            unwindStage r.1 ])
    ∧ (cascade_find_pipeline m doc_namespace).length = 2 * m.references.length := by
  obtain ⟨c, refs⟩ := m
  exact ⟨cascadeRefs_eq_flatMap refs doc_namespace, cascadeRefs_length refs doc_namespace⟩

/-- C7: the pipeline built by `find` has the fixed stage order match,
then limit, then skip, then the cascade stages; a limit stage appears in
it exactly when `limit > 0` (and then carries that limit), a skip stage
exactly when `skip > 0` — a value of 0 is omitted, never encoded as a
literal 0. -/
theorem find_pipeline_stage_order (m : ModelType) (q : Bson) (limit skip : Int) :
    find_pipeline m q limit skip
      = [matchStage q] ++ (if limit > 0 then [limitStage limit] else [])
        ++ (if skip > 0 then [skipStage skip] else [])
        ++ cascade_find_pipeline m ""
    ∧ (find_pipeline m q limit skip).filter isLimitStage
        = (if limit > 0 then [limitStage limit] else [])
    ∧ (find_pipeline m q limit skip).filter isSkipStage
        = (if skip > 0 then [skipStage skip] else []) := by
  have horder : find_pipeline m q limit skip
      = [matchStage q] ++ (if limit > 0 then [limitStage limit] else [])
        ++ (if skip > 0 then [skipStage skip] else [])
        ++ cascade_find_pipeline m "" := by
    unfold find_pipeline
    split_ifs <;> simp
  have hcasL : (cascade_find_pipeline m "").filter isLimitStage = [] := by
    obtain ⟨c, refs⟩ := m
    exact List.filter_eq_nil_iff.mpr
      (fun s hs => by simp [(cascade_stage_not_limit_skip refs "" s hs).1])
  have hcasS : (cascade_find_pipeline m "").filter isSkipStage = [] := by
    obtain ⟨c, refs⟩ := m
    exact List.filter_eq_nil_iff.mpr
      (fun s hs => by simp [(cascade_stage_not_limit_skip refs "" s hs).2])
  refine ⟨horder, ?_, ?_⟩
  · rw [horder]
    simp only [List.filter_append, hcasL, List.append_nil]
    split_ifs <;> simp [matchStage, limitStage, skipStage, isLimitStage]
  · rw [horder]
    simp only [List.filter_append, hcasS, List.append_nil]
    split_ifs <;> simp [matchStage, limitStage, skipStage, isSkipStage]

/-- C9: `find_one(model, query)` is equivalent to materializing
`find(model, query, limit=1)`: it returns the first resulting instance
when the result list is non-empty and `None` exactly when it is empty. -/
theorem find_one_equiv_find_limit_one (store : List Bson → List Bson)
    (parse_doc : Bson → Instance) (m : ModelType) (q : Bson) :
    find_one store parse_doc m q = (find_materialized store parse_doc m q 1 0).head?
    ∧ (find_one store parse_doc m q = none
        ↔ find_materialized store parse_doc m q 1 0 = []) := by
  cases h : find_materialized store parse_doc m q 1 0 with
  | nil => simp [find_one, h]
  | cons x xs => simp [find_one, h]

/-- C4: fully materializing a cursor twice — by await-all or by an
exhausting iteration, in any combination — yields the identical ordered
sequence of parsed instances both times; the first materialization reads
every document of the underlying stream exactly once, the second reads
nothing and is served entirely from the cache, leaving the cursor state
untouched. -/
theorem cursor_double_materialization (parse_doc : Bson → Instance)
    (docs : List Bson) (b1 b2 : Bool) :
    (cursorConsume b1 parse_doc (freshCursor docs)).1 = docs.map (parse_document parse_doc)
    ∧ (cursorConsume b2 parse_doc (cursorConsume b1 parse_doc (freshCursor docs)).2.1).1
        = docs.map (parse_document parse_doc)
    ∧ (cursorConsume b1 parse_doc (freshCursor docs)).2.2 = docs.length
    ∧ (cursorConsume b2 parse_doc (cursorConsume b1 parse_doc (freshCursor docs)).2.1).2.2 = 0
    ∧ (cursorConsume b2 parse_doc (cursorConsume b1 parse_doc (freshCursor docs)).2.1).2.1
        = (cursorConsume b1 parse_doc (freshCursor docs)).2.1 := by
  have hfold := foldl_parse_eq_map parse_doc docs []
  simp only [List.nil_append] at hfold
  cases b1 <;> cases b2 <;>
    simp [cursorConsume, cursorAwait, cursorIterate, freshCursor, hfold]

/-- C10: an asynchronous iteration that is started but abandoned after
`k` of the stream's documents (strictly before exhaustion) never marks
the cursor materialized and retains nothing in the cache; a subsequent
await returns, and caches as the materialized result, exactly the parses
of the documents that remained unconsumed, so (for distinct documents and
an injective parser) every earlier-yielded instance is missing from that
result. -/
theorem abandoned_iteration_not_cached (parse_doc : Bson → Instance)
    (docs : List Bson) (k : Nat) (hk : k < docs.length)
    (hinj : ∀ a b : Bson,
      parse_document parse_doc a = parse_document parse_doc b → a = b)
    (hnd : docs.Nodup) :
    (cursorIteratePartial parse_doc (freshCursor docs) k).2.results = none
    ∧ (cursorIteratePartial parse_doc (freshCursor docs) k).1
        = (docs.take k).map (parse_document parse_doc)
    ∧ (cursorAwait parse_doc (cursorIteratePartial parse_doc (freshCursor docs) k).2).1
        = (docs.drop k).map (parse_document parse_doc)
    ∧ (cursorAwait parse_doc
        (cursorIteratePartial parse_doc (freshCursor docs) k).2).2.1.results
        = some ((docs.drop k).map (parse_document parse_doc))
    ∧ ∀ x ∈ (cursorIteratePartial parse_doc (freshCursor docs) k).1,
        x ∉ (cursorAwait parse_doc
          (cursorIteratePartial parse_doc (freshCursor docs) k).2).1 := by
  have hstate : cursorIteratePartial parse_doc (freshCursor docs) k
      = ((docs.take k).map (parse_document parse_doc),
         (⟨docs.drop k, none⟩ : CursorState)) := by
    simp [cursorIteratePartial, freshCursor, hk]
  have hawait : cursorAwait parse_doc (⟨docs.drop k, none⟩ : CursorState)
      = ((docs.drop k).map (parse_document parse_doc),
         (⟨[], some ((docs.drop k).map (parse_document parse_doc))⟩ : CursorState),
         (docs.drop k).length) := by
    have hf := foldl_parse_eq_map parse_doc (docs.drop k) []
    simp only [List.nil_append] at hf
    simp [cursorAwait, hf]
  refine ⟨by rw [hstate], by rw [hstate], by rw [hstate, hawait],
    by rw [hstate, hawait], ?_⟩
  rw [hstate, hawait]
  intro x hx hmem
  simp only [List.mem_map] at hx hmem
  obtain ⟨a, ha, rfl⟩ := hx
  obtain ⟨b, hb, hab⟩ := hmem
  have hdisj := List.disjoint_take_drop (m := k) (n := k) hnd (Nat.le_refl k)
  exact hdisj ha (hinj b a hab ▸ hb)

/-- C5: for every instance in a recursive save, an empty modified-fields
set issues no write for that instance and leaves it unchanged by the
top-level clearing, while a non-empty one issues exactly one upsert whose
filter is keyed by the primary key value and whose write document holds
exactly the instance's fields that are modified and are not the primary
key field. -/
theorem save_write_per_instance (i : Instance) :
    (i.fieldsModified = [] → saveWriteOf i = [] ∧ i.withFieldsModified [] = i)
    ∧ (i.fieldsModified ≠ [] → saveWriteOf i = [saveOp i]
        ∧ (saveOp i).filter = .doc [("_id", i.idVal)]
        ∧ (saveOp i).upsert = true
        ∧ ∃ D, (saveOp i).update = .doc [("$set", .doc D)]
            ∧ ∀ nm v, (nm, v) ∈ D
                ↔ ((nm, v) ∈ i.fields ∧ nm ∈ i.fieldsModified
                    ∧ nm ≠ i.primaryKeyName)) := by
  constructor
  · intro h
    obtain ⟨c, pk, v, fs, rs, mm⟩ := i
    simp only [Instance.fieldsModified] at h
    subst h
    exact ⟨rfl, rfl⟩
  · intro h
    have h1 : saveWriteOf i = [saveOp i] := by
      obtain ⟨c, pk, v, fs, rs, mm⟩ := i
      simp only [Instance.fieldsModified] at h
      cases mm with
      | nil => exact absurd rfl h
      | cons a as => rfl
    refine ⟨h1, rfl, rfl,
      i.doc (i.fieldsModified.filter (fun f => f != i.primaryKeyName)), rfl, ?_⟩
    intro nm v
    simp [Instance.doc, List.mem_filter, List.elem_iff, and_assoc]

/-! Concrete instances and store behaviours used by witnesses and
counterexamples. -/

/-- A store behaviour in which every write raises a transport error. -/
def failTransport : WriteOp → Option StoreError := fun _ => some (.transport "boom")

/-- A store behaviour in which every write raises a `DuplicateKeyError`
whose key pattern is `{"_id": ...}`. -/
def failDuplicateId : WriteOp → Option StoreError :=
  fun _ => some (.duplicateKey ["_id"])

/-- A store behaviour in which every write succeeds. -/
def noFailure : WriteOp → Option StoreError := fun _ => none

/-- A leaf author instance whose `name` field is modified. -/
def exAuthor : Instance :=
  .mk "authors" "id" (.int 7) [("name", .str "A")] [] ["name"]

/-- A book referencing `exAuthor` through its `author` field, itself
unmodified: the only write of its save subtree is the author's. -/
def exBook : Instance :=
  .mk "books" "id" (.int 3) [("title", .str "T")] [("author", exAuthor)] []

/-- A book referencing `exAuthor`, with its own `title` modified. -/
def exBookModified : Instance :=
  .mk "books" "id" (.int 3) [("title", .str "T")] [("author", exAuthor)] ["title"]

/-- A modified leaf used as the first of two sibling children. -/
def exSibA : Instance := .mk "as" "id" (.int 10) [("x", .int 1)] [] ["x"]

/-- A modified leaf used as the second of two sibling children. -/
def exSibB : Instance := .mk "bs" "id" (.int 11) [("y", .int 2)] [] ["y"]

/-- An unmodified parent with the two sibling children `exSibA` and
`exSibB`. -/
def exParent2 : Instance :=
  .mk "ps" "id" (.int 12) [] [("a", exSibA), ("b", exSibB)] []

/-- C1: all recursive writes of one top-level `save` call commit or abort
atomically: under any admissible concurrent write trace of the recursive
save, if every write succeeds they all become observable together, and if
any write of the subtree fails the transaction aborts — no write of the
subtree is observably persisted and `save` raises. -/
theorem save_transaction_atomicity (root : Instance) (trace : List WriteOp)
    (st : StoreState) (fail : WriteOp → Option StoreError)
    (_htrace : SaveTrace root trace) :
    (firstFail fail trace = none →
      (saveWithTrace root trace st fail).2 = st ++ trace
      ∧ (saveWithTrace root trace st fail).1 = .ok (root.withFieldsModified []))
    ∧ (∀ op e, op ∈ trace → fail op = some e →
      (saveWithTrace root trace st fail).2 = st
      ∧ ∃ err, (saveWithTrace root trace st fail).1 = .error err) := by
  constructor
  · intro h
    simp [saveWithTrace, runTransaction, h]
  · intro op e hmem hfail
    obtain ⟨e2, he2⟩ := firstFail_isSome_of_mem fail trace op e hmem hfail
    cases e2 with
    | duplicateKey kp =>
        by_cases hid : "_id" ∈ kp <;>
          simp [saveWithTrace, runTransaction, he2, hid]
    | transport msg => simp [saveWithTrace, runTransaction, he2]

/-- Witness for C1 at a concrete input: saving the modified leaf
`exAuthor` against a store whose write raises a transport error leaves
the empty store unchanged and surfaces an error. -/
theorem save_transaction_atomicity_witness :
    (saveWithTrace exAuthor [saveOp exAuthor] [] failTransport).2 = []
    ∧ ∃ err, (saveWithTrace exAuthor [saveOp exAuthor] [] failTransport).1
        = .error err :=
  (save_transaction_atomicity exAuthor [saveOp exAuthor] [] failTransport
      (saveTrace_leaf "authors" "id" (.int 7) [("name", .str "A")] ["name"])).2
    (saveOp exAuthor) (.transport "boom") (List.mem_singleton.mpr rfl) rfl

/-- C6 (amended): when the transactional save fails with a uniqueness
violation whose key pattern contains `_id`, `save` raises
`DuplicatePrimaryKeyError` carrying the root instance the top-level
`save` was called with (which need not be the instance whose write
violated uniqueness); a uniqueness violation on any other key is
re-raised unchanged as the store's native error. -/
theorem save_duplicate_key_translation (root : Instance) (st : StoreState)
    (fail : WriteOp → Option StoreError) (kp : List String)
    (h : firstFail fail (saveWrites root) = some (.duplicateKey kp)) :
    ("_id" ∈ kp → (save root st fail).1 = .error (.duplicatePrimaryKey root))
    ∧ (¬ "_id" ∈ kp →
        (save root st fail).1 = .error (.storeError (.duplicateKey kp))) := by
  constructor <;> intro hid <;>
    simp [save, saveWithTrace, runTransaction, h, hid]

/-- Witness for C6 at a concrete input: an `_id` uniqueness violation
inside `exBook`'s save surfaces as `DuplicatePrimaryKeyError` carrying
`exBook`. -/
theorem save_duplicate_key_translation_witness :
    (save exBook [] failDuplicateId).1 = .error (.duplicatePrimaryKey exBook) :=
  (save_duplicate_key_translation exBook [] failDuplicateId ["_id"] rfl).1
    (List.mem_singleton.mpr rfl)

/-- Counterexample for C6 as stated: the only write of `exBook`'s save
subtree is the referenced author's upsert, so it is `exAuthor`'s write
whose `_id` uniqueness fails, yet the raised `DuplicatePrimaryKeyError`
carries the root `exBook`, which is not the instance whose write violated
uniqueness. -/
theorem save_duplicate_key_carries_root_not_offender :
    saveWrites exBook = [saveOp exAuthor]
    ∧ (save exBook [] failDuplicateId).1 = .error (.duplicatePrimaryKey exBook)
    ∧ exBook ≠ exAuthor := by
  refine ⟨rfl, rfl, ?_⟩
  simp [exBook, exAuthor]

/-- C8: within one save call, every admissible write trace of an instance
with a non-empty modified-fields set ends with the instance's own upsert,
preceded by a segment containing each child subtree's complete trace as a
subsequence (children complete before the parent's write is issued);
sibling subtrees have no relative ordering guarantee — the concrete
parent `exParent2` admits traces with its two children's writes in either
order. -/
theorem save_child_before_parent_ordering :
    (∀ (i : Instance) (trace : List WriteOp), SaveTrace i trace →
      i.fieldsModified ≠ [] →
      ∃ pre cts, trace = pre ++ [saveOp i]
        ∧ SaveTraceChildren i.references cts
        ∧ ∀ ct ∈ cts, ct.Sublist pre)
    ∧ SaveTrace exParent2 [saveOp exSibA, saveOp exSibB]
    ∧ SaveTrace exParent2 [saveOp exSibB, saveOp exSibA]
    ∧ saveOp exSibA ≠ saveOp exSibB := by
  refine ⟨?_, ?_, ?_, ?_⟩
  · intro i trace h hm
    cases h with
    | @mk c pk v fs refs m childTraces merged hchild hmerge =>
        simp only [Instance.fieldsModified] at hm
        refine ⟨merged, childTraces, ?_, hchild, fun ct hct => hmerge.mem_sublist ct hct⟩
        cases m with
        | nil => exact absurd rfl hm
        | cons a as => rfl
  · exact SaveTrace.mk
      (.cons (saveTrace_leaf "as" "id" (.int 10) [("x", .int 1)] ["x"])
        (.cons (saveTrace_leaf "bs" "id" (.int 11) [("y", .int 2)] ["y"]) .nil))
      (.cons (.cons .nil (.left .nil)) (.left (.right .nil)))
  · exact SaveTrace.mk
      (.cons (saveTrace_leaf "as" "id" (.int 10) [("x", .int 1)] ["x"])
        (.cons (saveTrace_leaf "bs" "id" (.int 11) [("y", .int 2)] ["y"]) .nil))
      (.cons (.cons .nil (.left .nil)) (.right (.left .nil)))
  · simp [saveOp, exSibA, exSibB, Instance.collection, Instance.idVal,
      Instance.doc, Instance.fields, Instance.fieldsModified,
      Instance.primaryKeyName]

/-- C2 (evaluation of the code at the failing input): saving
`exBookModified`, whose referenced author has the modified field `name`,
succeeds and clears the root's modified-fields set, but the recursively
saved sub-instance keeps `__fields_modified__ = {"name"}` — the code
clears only the root, contradicting the invariant that every
just-saved instance has an empty modified-fields set; an instance parsed
by the cursor, by contrast, does get an empty set. -/
theorem save_leaves_child_fields_modified :
    (save exBookModified [] noFailure).1
        = .ok (exBookModified.withFieldsModified [])
    ∧ ((exBookModified.withFieldsModified []).references.map
        (fun p => p.2.fieldsModified)) = [["name"]]
    ∧ (parse_document (fun _ => exAuthor) (.int 0)).fieldsModified = [] :=
  ⟨rfl, rfl, rfl⟩

/-- A concrete parser that embeds the raw document into a fresh clean
instance; it is injective. -/
def exParse : Bson → Instance := fun raw_doc => .mk "c" "pk" raw_doc [] [] []

/-- A concrete two-document stream. -/
def exDocs : List Bson := [.int 1, .int 2]

/-- Witness for C10 at a concrete input: iterating one document of a
two-document stream and abandoning leaves the cursor unmaterialized. -/
theorem abandoned_iteration_not_cached_witness :
    (cursorIteratePartial exParse (freshCursor exDocs) 1).2.results = none :=
  (abandoned_iteration_not_cached exParse exDocs 1 (by norm_num [exDocs])
    (by
      intro a b h
      simpa [parse_document, exParse, Instance.withFieldsModified] using h)
    (by simp [exDocs])).1

end Odmantic
